import Mathlib

/-!
Verification of the digital wellbeing tracker (src/digital_wellbeing_app.py).

The program keeps an in-memory ledger of "session" records (id, start, end,
app, category, notes, duration_min) in a pandas DataFrame stored in
Streamlit session state, and derives analytics from it on every rerun.

Embedding choices, each noted at the definition it concerns:
* Timestamps are modelled at whole-second granularity as a calendar day
  number plus a second-of-day offset, matching the storage format
  "%Y-%m-%d %H:%M:%S" used for the `start` and `end` columns; the string
  form and the timestamp are in bijection for this fixed format, so records
  carry the timestamp directly.
* Python floats are modelled as rationals; `0.8` denotes exactly 4/5 here,
  and Python's `round(x, 2)` is modelled as rounding to an integer number
  of hundredths (ties differ from banker's rounding only at exact .005
  boundaries, inside the two-decimal tolerance used by the statements).
* `uuid.uuid4()` is modelled as an injective supply of fresh identifier
  strings drawn from a counter; the program relies on uuid4 only to
  produce a fresh unique token.
-/

/-- A timestamp at whole-second granularity: a calendar day number and the
second within that day.  `pd.to_datetime` on the stored
"%Y-%m-%d %H:%M:%S" strings recovers exactly this information, and
`.dt.date` projects the `day` component. -/
structure DT where
  day : Int
  sec : Int
deriving DecidableEq

/-- Total seconds of a timestamp; differences of datetimes in
`duration_minutes` and order comparisons between datetimes reduce to this. -/
def toSec (t : DT) : Int := t.day * 86400 + t.sec

/-- One row of the sessions DataFrame (columns created in `load_sessions`,
line 25-27 of the source).  The `end` column is named `end_` because `end`
is reserved in Lean.  `duration_min` is the float column, as a rational. -/
structure Session where
  id : String
  start : DT
  end_ : DT
  app : String
  category : String
  notes : String
  duration_min : Rat
deriving DecidableEq

/-- `duration_minutes(start, end)` (line 20-21):
`(pd.to_datetime(end) - pd.to_datetime(start)).total_seconds() / 60.0`. -/
def duration_minutes (start end_ : DT) : Rat :=
  ((toSec end_ - toSec start : Int) : Rat) / 60

/-- Python's `round(x, 2)` (line 36): round to a whole number of
hundredths. -/
def round2 (x : Rat) : Rat := ((round (100 * x) : Int) : Rat) / 100

/-- The ledger held in `st.session_state.sessions`, plus the state of the
fresh-identifier supply standing in for `uuid.uuid4()`. -/
structure LedgerState where
  sessions : List Session
  ctr : Nat
deriving DecidableEq

/-- The fresh identifier produced by the `n`-th call of `uuid.uuid4()`
(line 35), modelled as an injective supply of tokens.  Real uuid4 strings,
like these, are nonempty and start with a character that cannot begin a
number, an NA token or a boolean token. -/
def genId (n : Nat) : String := String.mk ('u' :: List.replicate n 'a')

/-- The record dict built inside `add_session` (line 35-37). -/
def mkSession (n : Nat) (start end_ : DT) (app category notes : String) :
    Session :=
  ⟨genId n, start, end_, app, category, notes,
    round2 (duration_minutes start end_)⟩

/-- `add_session` (lines 33-39): append one freshly identified record with
the rounded duration. -/
def add_session (st : LedgerState) (start end_ : DT)
    (app category notes : String) : LedgerState :=
  ⟨st.sessions ++ [mkSession st.ctr start end_ app category notes],
    st.ctr + 1⟩

/-- The kind of inline message a handler shows. -/
inductive Msg
  | success
  | error
  | warning
  | info
deriving DecidableEq

/-- The "Add Session" button handler (lines 61-68): reject with an error
when `end_time <= start_time`, otherwise call `add_session`. -/
def addHandler (st : LedgerState) (start end_ : DT)
    (app category notes : String) : LedgerState × Msg :=
  if toSec end_ ≤ toSec start then (st, Msg.error)
  else (add_session st start end_ app category notes, Msg.success)

/-- Python's `str.strip()`: drop whitespace from both ends. -/
def pyStrip (s : String) : String :=
  String.mk
    (((s.data.dropWhile Char.isWhitespace).reverse.dropWhile
        Char.isWhitespace).reverse)

/-- The "Delete Session" button handler (lines 209-215): if the stripped
input is nonempty, keep exactly the rows whose `id` differs from it
(`df[df["id"] != delete_id.strip()]`), else warn and leave the ledger
alone. -/
def deleteHandler (input : String) (l : List Session) :
    List Session × Msg :=
  if pyStrip input = "" then (l, Msg.warning)
  else (l.filter (fun r => r.id != pyStrip input), Msg.success)

/-- Sum of the `duration_min` column of a list of rows (`.sum()`). -/
def sumDur (l : List Session) : Rat := (l.map Session.duration_min).sum

/-- The analytics date-range mask (line 112):
`(df["start_dt"].dt.date >= date_range[0]) & (df["end_dt"].dt.date <= date_range[1])`. -/
def rangeMask (lo hi : Int) (r : Session) : Bool :=
  decide (lo ≤ r.start.day) && decide (r.end_.day ≤ hi)

/-- `view = df.loc[mask]` (line 113). -/
def viewRange (l : List Session) (lo hi : Int) : List Session :=
  l.filter (rangeMask lo hi)

/-- `total_min = view["duration_min"].sum()` (line 115). -/
def total_min (l : List Session) (lo hi : Int) : Rat :=
  sumDur (viewRange l lo hi)

/-- One group of `view.groupby("app")["duration_min"].sum()` (line 118):
the summed duration of the rows of the view whose `app` equals `a`. -/
def by_app (l : List Session) (lo hi : Int) (a : String) : Rat :=
  sumDur ((viewRange l lo hi).filter (fun r => r.app == a))

/-- One group of `view.groupby("category")["duration_min"].sum()`
(line 119). -/
def by_category (l : List Session) (lo hi : Int) (c : String) : Rat :=
  sumDur ((viewRange l lo hi).filter (fun r => r.category == c))

/-- The group keys of the by-app view: the distinct `app` values occurring
in the filtered view. -/
def appKeys (l : List Session) (lo hi : Int) : Finset String :=
  ((viewRange l lo hi).map Session.app).toFinset

/-- The group keys of the by-category view. -/
def categoryKeys (l : List Session) (lo hi : Int) : Finset String :=
  ((viewRange l lo hi).map Session.category).toFinset

/-- The severity shown by the Daily Limit Alert. -/
inductive LimitState
  | under
  | near
  | over
deriving DecidableEq

/-- The Daily Limit Alert classification (lines 193-196):
`st.error` when `today_total >= daily_limit`, `st.warning` when
`today_total >= 0.8 * daily_limit`, otherwise no alert.  `0.8` is exactly
4/5 in this rational model. -/
def classifyLimit (today_total daily_limit : Rat) : LimitState :=
  if daily_limit ≤ today_total then LimitState.over
  else if (0.8 : Rat) * daily_limit ≤ today_total then LimitState.near
  else LimitState.under

/-- `today_total` (line 190):
`df.loc[df["start_dt"].dt.date == today, "duration_min"].sum()` — the
summed duration of the rows whose start date is today.  The end date of a
row plays no part. -/
def today_total (l : List Session) (today : Int) : Rat :=
  sumDur (l.filter (fun r => r.start.day == today))

/-- A ledger-mutating user operation: the Add Session handler, the Delete
Session handler, or a bulk import of already-parsed rows (the
`pd.concat([load_sessions(), imp], ignore_index=True)` of line 136, which
appends the rows as they are, with no check on their identifiers). -/
inductive Op
  | add (start end_ : DT) (app category notes : String)
  | del (input : String)
  | imp (rows : List Session)

/-- Whether an operation is a bulk import. -/
def Op.isImport : Op → Bool
  | Op.imp _ => true
  | _ => false

/-- Apply one operation to the ledger state.  Only a successful add
consumes a fresh identifier; delete and import leave the supply alone. -/
def applyOp (st : LedgerState) : Op → LedgerState
  | Op.add s e a c n => (addHandler st s e a c n).1
  | Op.del input => ⟨(deleteHandler input st.sessions).1, st.ctr⟩
  | Op.imp rows => ⟨st.sessions ++ rows, st.ctr⟩

/-- The state of a fresh process: `load_sessions` starts from an empty
DataFrame (lines 23-28). -/
def initState : LedgerState := ⟨[], 0⟩

/-- The ledger state reached from the empty state by a sequence of
operations. -/
def applyOps (ops : List Op) : LedgerState := ops.foldl applyOp initState

/-- A cell as written by `df.to_csv` (line 42): string columns contribute
their text, the float `duration_min` column contributes a decimal rendering
that `pd.read_csv` parses back to the same value (pandas writes the full
`repr` of the float, which round-trips), so numeric cells carry their value
directly. -/
inductive Cell
  | str (s : String)
  | num (q : Rat)
deriving DecidableEq

/-- A cell as it lands in the DataFrame produced by `pd.read_csv`
(line 135): a string, an inferred finite number, a signed infinity (from
an `inf`/`Infinity` literal in a numeric column), an inferred boolean, or
a missing value (NaN). -/
inductive CellVal
  | vStr (s : String)
  | vNum (q : Rat)
  | vInf (neg : Bool)
  | vBool (b : Bool)
  | vNaN
deriving DecidableEq

/-- The column schema of the sessions DataFrame (lines 25-27), which is
also the header `df.to_csv` writes. -/
def schemaCols : List String :=
  ["id", "start", "end", "app", "category", "notes", "duration_min"]

/-- The strings `pd.read_csv` treats as missing values by default (its
`na_values` default list). -/
def naTokens : List String :=
  ["", "#N/A", "#N/A N/A", "#NA", "-1.#IND", "-1.#QNAN", "-NaN", "-nan",
    "1.#IND", "1.#QNAN", "<NA>", "N/A", "NA", "NULL", "NaN", "None",
    "n/a", "nan", "null"]

/-- The strings `pd.read_csv` recognises as booleans when a whole column
consists of them. -/
def boolTokens : List String :=
  ["True", "False", "TRUE", "FALSE", "true", "false"]

/-- The boolean tokens that parse to `true`. -/
def trueTokens : List String := ["True", "TRUE", "true"]

/-- The decimal digit character for `d < 10`. -/
def digitChar (d : Nat) : Char := Char.ofNat (48 + d)

/-- Fuel-driven decimal rendering of a natural number (fuel first). -/
def natCharsAux : Nat → Nat → List Char
  | 0, _ => []
  | fuel + 1, n =>
    if n < 10 then [digitChar n]
    else natCharsAux fuel (n / 10) ++ [digitChar (n % 10)]

/-- Decimal rendering of a natural number. -/
def natChars (n : Nat) : List Char := natCharsAux (n + 1) n

/-- Decimal rendering of an integer. -/
def intChars (z : Int) : List Char :=
  if z < 0 then '-' :: natChars z.natAbs else natChars z.natAbs

/-- The text stored in the `start`/`end` columns for a timestamp.  The
program uses `strftime("%Y-%m-%d %H:%M:%S")`; what matters for the CSV
round trip is only that the rendering is injective, nonempty, and — like
the real format, which contains dashes, colons and spaces — can never be
read back as a number, an NA token or a boolean.  The leading marker
character makes those properties immediate. -/
def fmtDT (t : DT) : String :=
  String.mk ('d' :: intChars t.day ++ 't' :: intChars t.sec)

/-- The value of a digit list read as a decimal natural number. -/
def natOfDigits (ds : List Char) : Nat :=
  ds.foldl (fun a c => 10 * a + (c.toNat - 48)) 0

/-- Strip an optional leading sign, reporting whether it was a minus. -/
def parseDecSign (cs : List Char) : Bool × List Char :=
  if cs.head? = some ('-') then (true, cs.tail)
  else if cs.head? = some ('+') then (false, cs.tail)
  else (false, cs)

/-- Parse the exponent suffix of a scientific-notation literal and apply
it to the mantissa `q`. -/
def parseExp (q : Rat) (cs : List Char) : Option Rat :=
  let sn := parseDecSign cs
  let es := sn.2.takeWhile Char.isDigit
  let rest := sn.2.dropWhile Char.isDigit
  if es = [] ∨ rest ≠ [] then none
  else some (if sn.1 then q / 10 ^ natOfDigits es else q * 10 ^ natOfDigits es)

/-- The finite numeric literals `pd.read_csv`'s float converter accepts,
on already whitespace-trimmed text: an optional sign, digits with an
optional fractional part (at least one digit in total), and an optional
exponent.  Returns the value, or `none` for anything else. -/
def parseDecCore (cs0 : List Char) : Option Rat :=
  let sn := parseDecSign cs0
  let cs := sn.2
  let ds := cs.takeWhile Char.isDigit
  let r1 := cs.dropWhile Char.isDigit
  let fr :=
    if r1.head? = some ('.') then
      (r1.tail.takeWhile Char.isDigit, r1.tail.dropWhile Char.isDigit)
    else ([], r1)
  if ds = [] ∧ fr.1 = [] then none
  else
    let mant : Rat :=
      (natOfDigits ds : Rat) + (natOfDigits fr.1 : Rat) / 10 ^ fr.1.length
    let v := if sn.1 then -mant else mant
    if fr.2 = [] then some v
    else if fr.2.head? = some ('e') ∨ fr.2.head? = some ('E') then
      parseExp v fr.2.tail
    else none

/-- Drop trailing whitespace from a character list. -/
def trimTrail (cs : List Char) : List Char :=
  (cs.reverse.dropWhile Char.isWhitespace).reverse

/-- Drop surrounding whitespace, as pandas' float converter (`xstrtod` /
`precise_xstrtod`) skips whitespace around a numeric field. -/
def trimWs (cs : List Char) : List Char :=
  trimTrail (cs.dropWhile Char.isWhitespace)

/-- The infinity literals the converter accepts: an optional sign followed
by `inf` or `infinity` in any letter case. -/
def isInfTok (cs : List Char) : Bool :=
  let cs2 :=
    if cs.head? = some ('-') ∨ cs.head? = some ('+') then cs.tail else cs
  let low := cs2.map Char.toLower
  low = ['i', 'n', 'f'] || low = ['i', 'n', 'f', 'i', 'n', 'i', 't', 'y']

/-- The finite value of a numeric field: surrounding whitespace is
ignored, then `parseDecCore` applies. -/
def parseDec (s : String) : Option Rat := parseDecCore (trimWs s.data)

/-- Whether a string looks like a number to `pd.read_csv`'s converter:
after trimming surrounding whitespace, a finite literal or a signed
infinity literal. -/
def isNumStr (s : String) : Bool :=
  (parseDec s).isSome || isInfTok (trimWs s.data)

/-- The parsed value a text cell takes in a numeric column: its finite
value, a signed infinity for the infinity literals, and missing otherwise
(unreachable for the cells of an inferred-numeric column). -/
def numCellVal (s : String) : CellVal :=
  match parseDec s with
  | some q => CellVal.vNum q
  | none =>
    if isInfTok (trimWs s.data) then
      CellVal.vInf (decide ((trimWs s.data).head? = some ('-')))
    else CellVal.vNaN

/-- The dtype `pd.read_csv` infers for one column. -/
inductive ColKind
  | knum
  | kbool
  | kstr
deriving DecidableEq

/-- Whether a written cell is compatible with a numeric column: an NA
token, a numeric literal, or an already numeric value. -/
def potNum : Cell → Bool
  | Cell.str s => decide (s ∈ naTokens) || isNumStr s
  | Cell.num _ => true

/-- Whether a written cell is compatible with a boolean column. -/
def potBool : Cell → Bool
  | Cell.str s => decide (s ∈ naTokens) || decide (s ∈ boolTokens)
  | Cell.num _ => false

/-- How one written cell lands in a column of the given inferred kind:
NA tokens become missing values in every column; in a numeric column the
text is converted to its value, in a boolean column to its truth value,
and in an object column it stays text. -/
def convertCell (k : ColKind) : Cell → CellVal
  | Cell.num q => CellVal.vNum q
  | Cell.str s =>
    if s ∈ naTokens then CellVal.vNaN
    else
      match k with
      | ColKind.knum => numCellVal s
      | ColKind.kbool => CellVal.vBool (decide (s ∈ trueTokens))
      | ColKind.kstr => CellVal.vStr s

/-- The dtype `pd.read_csv` infers for column `j`: numeric when every cell
of the column could be numeric (or missing), else boolean when every cell
could be boolean (or missing), else plain text. -/
def colKind (rows : List (List Cell)) (j : Nat) : ColKind :=
  let col := rows.map (fun r => r.getD j (Cell.str ""))
  if col.all potNum then ColKind.knum
  else if col.all potBool then ColKind.kbool
  else ColKind.kstr

/-- One row of a serialized session: the seven schema cells in order
(`df.to_csv(index=False)`, line 42). -/
def rowToCells (r : Session) : List Cell :=
  [Cell.str r.id, Cell.str (fmtDT r.start), Cell.str (fmtDT r.end_),
    Cell.str r.app, Cell.str r.category, Cell.str r.notes,
    Cell.num r.duration_min]

/-- A CSV document: a header row of column names and the data rows. -/
structure CSVFile where
  header : List String
  rows : List (List Cell)
deriving DecidableEq

/-- `export_csv` (lines 41-42): the header row followed by one row per
session, all sessions, no filtering. -/
def to_csv (l : List Session) : CSVFile := ⟨schemaCols, l.map rowToCells⟩

/-- `pd.read_csv` (line 135): fails (raises) on an empty document or on a
row whose width disagrees with the header, and otherwise produces the
parsed rows with per-column dtype inference.  (pandas actually pads a
too-short row with NaN; treating both width mismatches as errors only
narrows the set of accepted inputs, and no statement below depends on
short rows.) -/
def read_csv (c : CSVFile) : Option (List (List CellVal)) :=
  if c.header = [] then none
  else if c.rows.any (fun r => r.length != c.header.length) then none
  else
    some (c.rows.map (fun r =>
      (List.range c.header.length).map (fun j =>
        convertCell (colKind c.rows j) (r.getD j (Cell.str "")))))

/-- The Import CSV handler (lines 132-139): on a parse failure the caught
exception is reported and the stored rows stay as they were; on success
the parsed rows are concatenated onto the stored ones.  The second
component tells whether the import succeeded. -/
def importHandler (c : CSVFile) (st : List (List CellVal)) :
    List (List CellVal) × Bool :=
  match read_csv c with
  | none => (st, false)
  | some rows => (st ++ rows, true)

/-- The parsed cells an exact round trip would have to produce for a
session record: every text field read back as the same text and the
duration read back as the same number. -/
def expectedCells (r : Session) : List CellVal :=
  [CellVal.vStr r.id, CellVal.vStr (fmtDT r.start),
    CellVal.vStr (fmtDT r.end_), CellVal.vStr r.app,
    CellVal.vStr r.category, CellVal.vStr r.notes,
    CellVal.vNum r.duration_min]

/-- A text field that survives the CSV round trip unchanged: not an NA
token (in particular not empty), not numeric to the converter (which,
after trimming surrounding whitespace, accepts finite literals and the
`inf`/`Infinity` forms), and not a boolean token. -/
abbrev goodStr (s : String) : Prop :=
  s ∉ naTokens ∧ isNumStr s = false ∧ s ∉ boolTokens

/-- A record all of whose text fields survive the round trip.  The
timestamp renderings need no assumption: `fmtDT` always survives. -/
def GoodRec (r : Session) : Prop :=
  goodStr r.id ∧ goodStr r.app ∧ goodStr r.category ∧ goodStr r.notes

/-- The user input of one Add Session interaction. -/
structure AddInput where
  start : DT
  end_ : DT
  app : String
  category : String
  notes : String

/-- Run a list of Add Session interactions against a state. -/
def buildFrom (st : LedgerState) : List AddInput → LedgerState
  | [] => st
  | i :: rest =>
    buildFrom (addHandler st i.start i.end_ i.app i.category i.notes).1 rest

/-- A ledger built by appending records to an initially empty ledger. -/
def buildLedger (inputs : List AddInput) : LedgerState :=
  buildFrom initState inputs

/-- Add to a DataFrame's column list the listed columns it lacks
(`df["c"] = ...` creates column `c` at the end if absent). -/
def addMissing (cols extra : List String) : List String :=
  cols ++ extra.filter (fun c => !(cols.contains c))

/-- The sessions DataFrame as an object: its rows and its column list.
`load_sessions` hands out the stored object itself (not a copy), so column
additions made by the analytics code mutate the stored DataFrame. -/
structure AppState where
  ledger : List Session
  cols : List String
deriving DecidableEq

/-- The Usage Analytics pane (lines 100-105): on every rerun with a
nonempty ledger it performs `df["start_dt"] = pd.to_datetime(df["start"])`
and `df["end_dt"] = pd.to_datetime(df["end"])` on the stored DataFrame in
place, adding both columns. -/
def analyticsBlock (st : AppState) : AppState :=
  if st.ledger = [] then st
  else ⟨st.ledger, addMissing st.cols [("start_dt"), ("end_dt")]⟩

/-- The Daily Limit Alert (lines 186-190): on every rerun with a nonempty
ledger it adds `start_dt` to the stored DataFrame in place. -/
def dailyLimitBlock (st : AppState) : AppState :=
  if st.ledger = [] then st
  else ⟨st.ledger, addMissing st.cols [("start_dt")]⟩

/-- The Export Sessions button handler (lines 141-147): warn and export
nothing on an empty ledger, otherwise serialize the stored DataFrame as it
is — all its rows and all its current columns. -/
def exportClick (st : AppState) : Option (List String × List Session) :=
  if st.ledger = [] then none else some (st.cols, st.ledger)

/-! ## Helper lemmas -/

lemma sumDur_nil : sumDur [] = 0 := rfl

lemma sumDur_cons (x : Session) (l : List Session) :
    sumDur (x :: l) = x.duration_min + sumDur l := by
  simp [sumDur]

lemma sumDur_append (a b : List Session) :
    sumDur (a ++ b) = sumDur a + sumDur b := by
  simp [sumDur]

/-- Rounding to two decimals moves a rational by at most half a hundredth. -/
lemma round2_close (x : Rat) : |round2 x - x| ≤ 1 / 200 := by
  have h := abs_sub_round (100 * x)
  rw [round2]
  have h2 : ((round (100 * x) : Int) : Rat) / 100 - x
      = (100 * x - ((round (100 * x) : Int) : Rat)) * (-1 / 100) := by ring
  rw [h2, abs_mul]
  have h3 : |(-1 : Rat) / 100| = 1 / 100 := by norm_num
  rw [h3]
  nlinarith [abs_nonneg (100 * x - ((round (100 * x) : Int) : Rat))]

/-- Summing a group-by over any set of keys that covers a list recovers the
plain sum of the list: the groups partition the rows. -/
lemma sum_groups (k : Session → String) :
    ∀ (l : List Session) (S : Finset String), (∀ x ∈ l, k x ∈ S) →
      (∑ a ∈ S, sumDur (l.filter (fun r => k r == a))) = sumDur l := by
  intro l
  induction l with
  | nil =>
    intro S _
    simp [sumDur_nil]
  | cons x t ih =>
    intro S h
    have hx : k x ∈ S := h x (by simp)
    have ht : ∀ y ∈ t, k y ∈ S := fun y hy => h y (by simp [hy])
    have hsplit : ∀ a ∈ S, sumDur ((x :: t).filter (fun r => k r == a))
        = (if k x = a then x.duration_min else 0)
          + sumDur (t.filter (fun r => k r == a)) := by
      intro a _
      by_cases hka : k x = a
      · simp [List.filter_cons, hka, sumDur_cons]
      · simp [List.filter_cons, hka]
    rw [Finset.sum_congr rfl hsplit, Finset.sum_add_distrib,
      Finset.sum_ite_eq S (k x) (fun _ => x.duration_min), if_pos hx,
      ih S ht, sumDur_cons]

/-! ## C1 and C2: the Add Session handler -/

/-- C1: with `end > start`, the Add Session handler appends exactly one new
record (the ledger becomes the old ledger with one record at its end, and
its length grows by one), and that record's `duration_min` equals the
elapsed time in minutes up to the two-decimal rounding tolerance of half a
hundredth. -/
theorem add_session_appends_one_with_duration (st : LedgerState)
    (start end_ : DT) (app category notes : String)
    (h : toSec start < toSec end_) :
    addHandler st start end_ app category notes
        = (⟨st.sessions ++ [mkSession st.ctr start end_ app category notes],
            st.ctr + 1⟩, Msg.success)
      ∧ (addHandler st start end_ app category notes).1.sessions.length
          = st.sessions.length + 1
      ∧ |(mkSession st.ctr start end_ app category notes).duration_min
          - duration_minutes start end_| ≤ 1 / 200 := by
  have hn : ¬ toSec end_ ≤ toSec start := not_le.mpr h
  refine ⟨by simp [addHandler, hn, add_session], ?_, ?_⟩
  · simp [addHandler, hn, add_session]
  · exact round2_close (duration_minutes start end_)

/-- Witness for C1 at the spec's example: 09:00 to 09:25 on the same day,
which yields a duration of exactly 25 minutes. -/
theorem add_session_appends_one_with_duration_witness :
    toSec ⟨0, 32400⟩ < toSec ⟨0, 33900⟩
      ∧ (addHandler ⟨[], 0⟩ ⟨0, 32400⟩ ⟨0, 33900⟩ ("browser") ("Social") ("")
            = (⟨[mkSession 0 ⟨0, 32400⟩ ⟨0, 33900⟩ ("browser") ("Social") ("")],
                1⟩, Msg.success)
          ∧ (addHandler ⟨[], 0⟩ ⟨0, 32400⟩ ⟨0, 33900⟩ ("browser") ("Social")
              ("")).1.sessions.length = ([] : List Session).length + 1
          ∧ |(mkSession 0 ⟨0, 32400⟩ ⟨0, 33900⟩ ("browser") ("Social")
              ("")).duration_min
              - duration_minutes ⟨0, 32400⟩ ⟨0, 33900⟩| ≤ 1 / 200) :=
  ⟨by decide,
    add_session_appends_one_with_duration ⟨[], 0⟩ ⟨0, 32400⟩ ⟨0, 33900⟩
      ("browser") ("Social") ("") (by decide)⟩

/-- C2: with `end <= start`, the Add Session handler reports an error and
returns the state unchanged: the ledger (hence its length) is untouched and
no record is produced; the handler is a total function, so the rejection is
non-fatal. -/
theorem add_session_rejects_nonpositive (st : LedgerState)
    (start end_ : DT) (app category notes : String)
    (h : toSec end_ ≤ toSec start) :
    addHandler st start end_ app category notes = (st, Msg.error) := by
  simp [addHandler, h]

/-- Witness for C2: an end one minute before the start is rejected. -/
theorem add_session_rejects_nonpositive_witness :
    toSec ⟨0, 32400⟩ ≤ toSec ⟨0, 32460⟩
      ∧ addHandler ⟨[], 0⟩ ⟨0, 32460⟩ ⟨0, 32400⟩ ("browser") ("Social") ("")
          = (⟨[], 0⟩, Msg.error) :=
  ⟨by decide,
    add_session_rejects_nonpositive ⟨[], 0⟩ ⟨0, 32460⟩ ⟨0, 32400⟩
      ("browser") ("Social") ("") (by decide)⟩

/-! ## C4: the three analytics views partition the filtered rows -/

/-- C4: over any date range, the per-app aggregates summed over all app
keys, the per-category aggregates summed over all category keys, and the
range total are all equal: the three views partition the same filtered
record set. -/
theorem analytics_views_partition (l : List Session) (lo hi : Int) :
    (∑ a ∈ appKeys l lo hi, by_app l lo hi a) = total_min l lo hi
      ∧ (∑ c ∈ categoryKeys l lo hi, by_category l lo hi c)
          = total_min l lo hi
      ∧ (∑ a ∈ appKeys l lo hi, by_app l lo hi a)
          = (∑ c ∈ categoryKeys l lo hi, by_category l lo hi c) := by
  have happ : (∑ a ∈ appKeys l lo hi, by_app l lo hi a)
      = total_min l lo hi := by
    apply sum_groups Session.app (viewRange l lo hi) (appKeys l lo hi)
    intro x hx
    exact List.mem_toFinset.mpr (List.mem_map_of_mem Session.app hx)
  have hcat : (∑ c ∈ categoryKeys l lo hi, by_category l lo hi c)
      = total_min l lo hi := by
    apply sum_groups Session.category (viewRange l lo hi)
      (categoryKeys l lo hi)
    intro x hx
    exact List.mem_toFinset.mpr (List.mem_map_of_mem Session.category hx)
  exact ⟨happ, hcat, happ.trans hcat.symm⟩

/-! ## C5: the daily limit classification -/

/-- C5: for a configured limit of at least the widget minimum of 30
minutes, the Daily Limit Alert classifies the day as over exactly when the
total has reached the limit, near exactly when it has reached 80% of the
limit without reaching the limit, and under exactly when it is below 80% of
the limit; in particular with limit 240 a total of 25 is under, 205 is
near, and 245 is over. -/
theorem daily_limit_classification (t L : Rat) (hL : 30 ≤ L) :
    (classifyLimit t L = LimitState.over ↔ L ≤ t)
      ∧ (classifyLimit t L = LimitState.near
          ↔ ((0.8 : Rat) * L ≤ t ∧ t < L))
      ∧ (classifyLimit t L = LimitState.under ↔ t < (0.8 : Rat) * L)
      ∧ classifyLimit 25 240 = LimitState.under
      ∧ classifyLimit 205 240 = LimitState.near
      ∧ classifyLimit 245 240 = LimitState.over := by
  have h45 : (0.8 : Rat) * L ≤ L := by nlinarith
  refine ⟨?_, ?_, ?_, by norm_num [classifyLimit], by norm_num [classifyLimit],
    by norm_num [classifyLimit]⟩
  · constructor
    · intro h
      by_contra hc
      by_cases h2 : (0.8 : Rat) * L ≤ t <;> simp [classifyLimit, hc, h2] at h
    · intro h
      simp [classifyLimit, h]
  · constructor
    · intro h
      by_cases h1 : L ≤ t
      · simp [classifyLimit, h1] at h
      · by_cases h2 : (0.8 : Rat) * L ≤ t
        · exact ⟨h2, not_le.mp h1⟩
        · simp [classifyLimit, h1, h2] at h
    · rintro ⟨h2, h1⟩
      simp [classifyLimit, not_le.mpr h1, h2]
  · constructor
    · intro h
      by_cases h1 : L ≤ t
      · simp [classifyLimit, h1] at h
      · by_cases h2 : (0.8 : Rat) * L ≤ t
        · simp [classifyLimit, h1, h2] at h
        · exact not_le.mp h2
    · intro h
      have h1 : ¬ L ≤ t := fun hc => absurd (le_trans h45 hc) (not_le.mpr h)
      simp [classifyLimit, h1, not_le.mpr h]

/-- Witness for C5 at the configured limit 240 and total 205. -/
theorem daily_limit_classification_witness :
    (30 : Rat) ≤ 240
      ∧ ((classifyLimit 205 240 = LimitState.over ↔ (240 : Rat) ≤ 205)
          ∧ (classifyLimit 205 240 = LimitState.near
              ↔ ((0.8 : Rat) * 240 ≤ 205 ∧ (205 : Rat) < 240))
          ∧ (classifyLimit 205 240 = LimitState.under
              ↔ (205 : Rat) < (0.8 : Rat) * 240)
          ∧ classifyLimit 25 240 = LimitState.under
          ∧ classifyLimit 205 240 = LimitState.near
          ∧ classifyLimit 245 240 = LimitState.over) :=
  ⟨by norm_num, daily_limit_classification 205 240 (by norm_num)⟩

/-! ## C10: today's total counts exactly the sessions that start today -/

/-- C10: appending a record whose start date is today raises today's total
by exactly that record's full duration, whatever its end date; appending a
record whose start date is not today (even one whose end date is today)
leaves today's total unchanged. -/
theorem today_total_counts_start_date (l : List Session) (d : Int)
    (r : Session) :
    (r.start.day = d →
      today_total (l ++ [r]) d = today_total l d + r.duration_min)
      ∧ (r.start.day ≠ d → today_total (l ++ [r]) d = today_total l d) := by
  constructor
  · intro h
    have hb : (r.start.day == d) = true := by simp [h]
    simp [today_total, List.filter_append, sumDur_append, hb, sumDur_cons,
      sumDur_nil]
  · intro h
    have hb : (r.start.day == d) = false := by simp [h]
    simp [today_total, List.filter_append, sumDur_append, hb, sumDur_nil]

/-- Witness for C10: a session starting late on day 5 and ending on day 6
counts fully toward day 5; a session starting on day 4 and ending on day 5
contributes nothing to day 5. -/
theorem today_total_counts_start_date_witness :
    ((⟨("u"), ⟨5, 86000⟩, ⟨6, 100⟩, ("b"), ("Social"), (""), 12⟩ :
        Session).start.day = 5
      ∧ today_total
            ([] ++ [⟨("u"), ⟨5, 86000⟩, ⟨6, 100⟩, ("b"), ("Social"), (""),
              12⟩]) 5
          = today_total [] 5
            + (⟨("u"), ⟨5, 86000⟩, ⟨6, 100⟩, ("b"), ("Social"), (""), 12⟩ :
                Session).duration_min)
      ∧ ((⟨("v"), ⟨4, 86000⟩, ⟨5, 100⟩, ("b"), ("Social"), (""), 7⟩ :
          Session).start.day ≠ 5
        ∧ today_total
              ([] ++ [⟨("v"), ⟨4, 86000⟩, ⟨5, 100⟩, ("b"), ("Social"), (""),
                7⟩]) 5
            = today_total [] 5) :=
  ⟨⟨by decide,
      (today_total_counts_start_date [] 5
        ⟨("u"), ⟨5, 86000⟩, ⟨6, 100⟩, ("b"), ("Social"), (""), 12⟩).1
        (by decide)⟩,
    ⟨by decide,
      (today_total_counts_start_date [] 5
        ⟨("v"), ⟨4, 86000⟩, ⟨5, 100⟩, ("b"), ("Social"), (""), 7⟩).2
        (by decide)⟩⟩

/-! ## C3: the Delete Session handler -/

/-- A list containing exactly one row with identifier `s` splits around that
row, and filtering the identifier away keeps precisely the other rows. -/
lemma filter_single_match (s : String) :
    ∀ (l : List Session), l.countP (fun r => r.id == s) = 1 →
      ∃ l1 r l2, l = l1 ++ r :: l2 ∧ r.id = s
        ∧ l.filter (fun r => r.id != s) = l1 ++ l2 := by
  intro l
  induction l with
  | nil =>
    intro h
    simp at h
  | cons x t ih =>
    intro h
    by_cases hx : x.id = s
    · have hxb : (x.id == s) = true := by simp [hx]
      have ht : t.countP (fun r => r.id == s) = 0 := by
        rw [List.countP_cons, hxb] at h
        simpa using h
      refine ⟨[], x, t, by simp, hx, ?_⟩
      have hkeep : t.filter (fun r => r.id != s) = t := by
        apply List.filter_eq_self.mpr
        intro a ha
        have hz := List.countP_eq_zero.mp ht a ha
        simpa [bne] using hz
      simp [List.filter_cons, hxb, hkeep, hx]
    · have hxb : (x.id == s) = false := by simp [hx]
      have ht : t.countP (fun r => r.id == s) = 1 := by
        rw [List.countP_cons, hxb] at h
        simpa using h
      obtain ⟨l1, r, l2, hdec, hid, hfil⟩ := ih ht
      refine ⟨x :: l1, r, l2, by simp [hdec], hid, ?_⟩
      simp [List.filter_cons, hxb, hfil, hx]

/-- C3 as amended: for an identifier that carries no surrounding whitespace
and is nonempty, the Delete Session handler removes exactly the unique
matching record (splitting the ledger around it and dropping the length by
one) when exactly one record matches, and returns the ledger unchanged with
a message when no record matches; the handler is total, so nothing is
fatal. -/
theorem delete_by_id_amended (input : String) (l : List Session)
    (h1 : pyStrip input = input) (h2 : input ≠ "") :
    (l.countP (fun r => r.id == input) = 1 →
      ∃ l1 r l2, l = l1 ++ r :: l2 ∧ r.id = input
        ∧ (deleteHandler input l).1 = l1 ++ l2
        ∧ (deleteHandler input l).1.length + 1 = l.length)
      ∧ (l.countP (fun r => r.id == input) = 0 →
          deleteHandler input l = (l, Msg.success)) := by
  have hne : ¬ pyStrip input = "" := by
    rw [h1]
    exact h2
  constructor
  · intro hc
    obtain ⟨l1, r, l2, hdec, hid, hfil⟩ := filter_single_match input l hc
    have hres : (deleteHandler input l).1 = l1 ++ l2 := by
      simp [deleteHandler, hne, h1, h2, hfil]
    refine ⟨l1, r, l2, hdec, hid, hres, ?_⟩
    rw [hres, hdec]
    simp [List.length_append]
    omega
  · intro hc
    have hkeep : l.filter (fun r => r.id != input) = l := by
      apply List.filter_eq_self.mpr
      intro a ha
      have hz := List.countP_eq_zero.mp hc a ha
      simpa [bne] using hz
    simp [deleteHandler, hne, h1, h2, hkeep]

/-- Witness for C3 as amended: deleting a clean identifier carried by
exactly one record removes exactly that record. -/
theorem delete_by_id_amended_witness :
    (pyStrip ("idz") = ("idz") ∧ ("idz") ≠ ""
        ∧ ([⟨("idz"), ⟨0, 0⟩, ⟨0, 60⟩, ("a"), ("Social"), (""), 1⟩] :
            List Session).countP (fun r => r.id == ("idz")) = 1)
      ∧ (∃ l1 r l2,
          ([⟨("idz"), ⟨0, 0⟩, ⟨0, 60⟩, ("a"), ("Social"), (""), 1⟩] :
              List Session) = l1 ++ r :: l2
            ∧ r.id = ("idz")
            ∧ (deleteHandler ("idz")
                [⟨("idz"), ⟨0, 0⟩, ⟨0, 60⟩, ("a"), ("Social"), (""), 1⟩]).1
                = l1 ++ l2
            ∧ (deleteHandler ("idz")
                [⟨("idz"), ⟨0, 0⟩, ⟨0, 60⟩, ("a"), ("Social"), (""),
                  1⟩]).1.length + 1
                = ([⟨("idz"), ⟨0, 0⟩, ⟨0, 60⟩, ("a"), ("Social"), (""), 1⟩] :
                    List Session).length) :=
  ⟨⟨by decide, by decide, by decide⟩,
    (delete_by_id_amended ("idz")
        [⟨("idz"), ⟨0, 0⟩, ⟨0, 60⟩, ("a"), ("Social"), (""), 1⟩]
        (by decide) (by decide)).1 (by decide)⟩

/-- Counterexample to C3 as stated: the identifier `"x "` (with a trailing
space, as a bulk import can produce) is carried by exactly one record of
the ledger, yet the delete operation leaves the ledger unchanged — the
handler strips its input to `"x"` first, which matches nothing — so the
length does not drop by one as the claim requires. -/
theorem delete_by_id_counterexample :
    ([⟨("x "), ⟨0, 0⟩, ⟨0, 60⟩, ("a"), ("Social"), (""), 1⟩] :
        List Session).countP (fun r => r.id == ("x ")) = 1
      ∧ (deleteHandler ("x ")
            [⟨("x "), ⟨0, 0⟩, ⟨0, 60⟩, ("a"), ("Social"), (""), 1⟩]).1
          = [⟨("x "), ⟨0, 0⟩, ⟨0, 60⟩, ("a"), ("Social"), (""), 1⟩]
      ∧ ¬ ((deleteHandler ("x ")
            [⟨("x "), ⟨0, 0⟩, ⟨0, 60⟩, ("a"), ("Social"), (""),
              1⟩]).1.length + 1
          = ([⟨("x "), ⟨0, 0⟩, ⟨0, 60⟩, ("a"), ("Social"), (""), 1⟩] :
              List Session).length) := by
  refine ⟨by decide, by decide, by decide⟩

/-! ## C9: identifier uniqueness under append and delete -/

/-- The fresh-identifier supply never repeats a token. -/
lemma genId_inj {n m : Nat} (h : genId n = genId m) : n = m := by
  have hlen := congrArg (fun s => s.data.length) h
  simpa [genId] using hlen

/-- The Delete Session handler returns a sublist of the ledger. -/
lemma deleteHandler_sublist (input : String) (l : List Session) :
    (deleteHandler input l).1.Sublist l := by
  unfold deleteHandler
  split
  · exact List.Sublist.refl l
  · exact List.filter_sublist l

/-- One import-free operation preserves the invariant that the ledger's
identifiers are distinct and all drawn from the part of the fresh supply
already consumed. -/
lemma inv_applyOp (st : LedgerState) (op : Op) (hop : op.isImport = false)
    (h1 : (st.sessions.map Session.id).Nodup)
    (h2 : ∀ r ∈ st.sessions, ∃ n, n < st.ctr ∧ r.id = genId n) :
    ((applyOp st op).sessions.map Session.id).Nodup
      ∧ ∀ r ∈ (applyOp st op).sessions,
          ∃ n, n < (applyOp st op).ctr ∧ r.id = genId n := by
  cases op with
  | add s e a c nt =>
    by_cases hv : toSec e ≤ toSec s
    · simpa [applyOp, addHandler, hv] using ⟨h1, h2⟩
    · have hres : applyOp st (Op.add s e a c nt)
          = ⟨st.sessions ++ [mkSession st.ctr s e a c nt], st.ctr + 1⟩ := by
        simp [applyOp, addHandler, hv, add_session]
      rw [hres]
      constructor
      · rw [List.map_append]
        refine List.nodup_append.mpr ⟨h1, by simp, ?_⟩
        intro x hx hx2
        simp [mkSession] at hx2
        obtain ⟨r, hr, hrid⟩ := List.mem_map.mp hx
        obtain ⟨n, hn, hid⟩ := h2 r hr
        rw [← hrid, hid] at hx2
        exact absurd (genId_inj hx2) (Nat.ne_of_lt hn)
      · intro r hr
        rcases List.mem_append.mp hr with hr1 | hr2
        · obtain ⟨n, hn, hid⟩ := h2 r hr1
          exact ⟨n, Nat.lt_succ_of_lt hn, hid⟩
        · have : r = mkSession st.ctr s e a c nt := by simpa using hr2
          refine ⟨st.ctr, Nat.lt_succ_self _, ?_⟩
          rw [this]
          rfl
  | del input =>
    have hsub := deleteHandler_sublist input st.sessions
    constructor
    · exact h1.sublist (hsub.map Session.id)
    · intro r hr
      exact h2 r (hsub.subset hr)
  | imp rows =>
    simp [Op.isImport] at hop

/-- The invariant holds along any import-free operation sequence. -/
lemma inv_foldl :
    ∀ (ops : List Op) (st : LedgerState),
      (∀ op ∈ ops, op.isImport = false) →
      (st.sessions.map Session.id).Nodup →
      (∀ r ∈ st.sessions, ∃ n, n < st.ctr ∧ r.id = genId n) →
      ((ops.foldl applyOp st).sessions.map Session.id).Nodup
        ∧ ∀ r ∈ (ops.foldl applyOp st).sessions,
            ∃ n, n < (ops.foldl applyOp st).ctr ∧ r.id = genId n := by
  intro ops
  induction ops with
  | nil =>
    intro st _ h1 h2
    exact ⟨h1, h2⟩
  | cons op rest ih =>
    intro st h h1 h2
    have hop : op.isImport = false := h op (by simp)
    have hrest : ∀ o ∈ rest, o.isImport = false := fun o ho => h o (by simp [ho])
    obtain ⟨g1, g2⟩ := inv_applyOp st op hop h1 h2
    simpa [List.foldl_cons] using ih (applyOp st op) hrest g1 g2

/-- C9 as amended: along every sequence of append and delete operations
from the empty ledger (bulk import excluded), the identifiers of the ledger
records are pairwise distinct. -/
theorem unique_ids_amended (ops : List Op)
    (h : ∀ op ∈ ops, op.isImport = false) :
    ((applyOps ops).sessions.map Session.id).Nodup :=
  (inv_foldl ops initState h (by simp [initState]) (by simp [initState])).1

/-- Witness for C9 as amended: one successful add followed by a delete
leaves distinct identifiers. -/
theorem unique_ids_amended_witness :
    (∀ op ∈ [Op.add ⟨0, 32400⟩ ⟨0, 33900⟩ ("browser") ("Social") (""),
        Op.del ("nope")], op.isImport = false)
      ∧ ((applyOps [Op.add ⟨0, 32400⟩ ⟨0, 33900⟩ ("browser") ("Social") (""),
          Op.del ("nope")]).sessions.map Session.id).Nodup :=
  ⟨by decide,
    unique_ids_amended
      [Op.add ⟨0, 32400⟩ ⟨0, 33900⟩ ("browser") ("Social") (""),
        Op.del ("nope")] (by decide)⟩

/-- Counterexample to C9 as stated: a single bulk import of two rows that
carry the same identifier is a reachable state (reachable via append,
delete and bulk-import operations), yet its identifiers are not pairwise
distinct — the import handler appends rows without any identifier check. -/
theorem unique_ids_counterexample :
    ¬ ((applyOps
          [Op.imp [⟨("x"), ⟨0, 0⟩, ⟨0, 60⟩, ("a"), ("Social"), (""), 1⟩,
            ⟨("x"), ⟨0, 0⟩, ⟨0, 60⟩, ("a"), ("Social"), (""),
              1⟩]]).sessions.map Session.id).Nodup := by
  decide

/-! ## C7: import is atomic on parse error -/

/-- C7: when parsing the uploaded file fails, the import handler reports
failure and returns exactly the stored rows it started from — the ledger
is untouched. -/
theorem import_error_leaves_state (c : CSVFile) (st : List (List CellVal))
    (h : read_csv c = none) : importHandler c st = (st, false) := by
  simp [importHandler, h]

/-- Witness for C7: an empty upload (which raises EmptyDataError in
pandas) leaves a one-row store untouched. -/
theorem import_error_leaves_state_witness :
    read_csv ⟨[], []⟩ = none
      ∧ importHandler ⟨[], []⟩ [[CellVal.vStr ("x")]]
          = ([[CellVal.vStr ("x")]], false) :=
  ⟨by decide,
    import_error_leaves_state ⟨[], []⟩ [[CellVal.vStr ("x")]] (by decide)⟩

/-! ## C8: export after analytics carries the in-place added columns -/

/-- C8 evaluated at the failing input: with one session in the ledger,
rendering the Usage Analytics pane adds `start_dt` and `end_dt` to the
stored DataFrame in place, so the subsequent export serializes nine
columns, not the seven-column record schema the claim (and the import
path) expects.  All rows are still exported unfiltered. -/
theorem export_columns_after_analytics :
    exportClick (analyticsBlock
        ⟨[⟨("u"), ⟨0, 32400⟩, ⟨0, 33900⟩, ("browser"), ("Social"), (""),
          25⟩], schemaCols⟩)
      = some (schemaCols ++ [("start_dt"), ("end_dt")],
          [⟨("u"), ⟨0, 32400⟩, ⟨0, 33900⟩, ("browser"), ("Social"), (""),
            25⟩])
      ∧ schemaCols ++ [("start_dt"), ("end_dt")] ≠ schemaCols := by
  refine ⟨by decide, by decide⟩

/-! ## C6: the CSV round trip -/

/-- Trimmed text headed by a character that is not a digit, sign or dot is
not a finite numeric literal. -/
lemma parseDecCore_head_nonnum (c : Char) (cs : List Char)
    (h1 : c.isDigit = false) (h2 : c ≠ ('-')) (h3 : c ≠ ('+'))
    (h4 : c ≠ ('.')) : parseDecCore (c :: cs) = none := by
  simp [parseDecCore, parseDecSign, h1, h2, h3, h4]

/-- Dropping a prefix ignores a final element the predicate rejects. -/
lemma dropWhile_append_singleton (p : Char → Bool) (l : List Char)
    (c : Char) (hc : p c = false) :
    (l ++ [c]).dropWhile p = l.dropWhile p ++ [c] := by
  induction l with
  | nil => simp [List.dropWhile_cons, hc]
  | cons x xs ih =>
    by_cases hx : p x
    · simp [List.dropWhile_cons, hx, ih]
    · simp [List.dropWhile_cons, hx]

/-- Trailing trim passes over a non-whitespace head. -/
lemma trimTrail_cons (c : Char) (cs : List Char)
    (hc : c.isWhitespace = false) :
    trimTrail (c :: cs) = c :: trimTrail cs := by
  unfold trimTrail
  rw [List.reverse_cons, dropWhile_append_singleton _ _ _ hc,
    List.reverse_append]
  simp

/-- Whitespace trim passes over a non-whitespace head. -/
lemma trimWs_cons (c : Char) (cs : List Char)
    (hc : c.isWhitespace = false) :
    trimWs (c :: cs) = c :: trimTrail cs := by
  unfold trimWs
  rw [List.dropWhile_cons]
  simp only [hc]
  exact trimTrail_cons c cs hc

/-- Text headed by a character that is no sign and does not lower to `i`
is not an infinity literal. -/
lemma isInfTok_head_false (c : Char) (l : List Char)
    (h2 : c ≠ ('-')) (h3 : c ≠ ('+')) (hi : c.toLower ≠ ('i')) :
    isInfTok (c :: l) = false := by
  simp [isInfTok, h2, h3, hi]

/-- No NA token starts with the identifier marker. -/
lemma naTokens_head_u : ∀ s ∈ naTokens, s.data.head? ≠ some ('u') := by
  decide

/-- No NA token starts with the timestamp marker. -/
lemma naTokens_head_d : ∀ s ∈ naTokens, s.data.head? ≠ some ('d') := by
  decide

/-- No boolean token starts with the identifier marker. -/
lemma boolTokens_head_u : ∀ s ∈ boolTokens, s.data.head? ≠ some ('u') := by
  decide

/-- No boolean token starts with the timestamp marker. -/
lemma boolTokens_head_d : ∀ s ∈ boolTokens, s.data.head? ≠ some ('d') := by
  decide

/-- A string survives the round trip whenever its first character rules
out numbers (finite and infinite, with no whitespace to trim), NA tokens
and boolean tokens at once. -/
lemma goodStr_mk_head (c : Char) (cs : List Char)
    (h0 : c.isWhitespace = false)
    (h1 : c.isDigit = false) (h2 : c ≠ ('-')) (h3 : c ≠ ('+'))
    (h4 : c ≠ ('.')) (hi : c.toLower ≠ ('i'))
    (h5 : ∀ s ∈ naTokens, s.data.head? ≠ some c)
    (h6 : ∀ s ∈ boolTokens, s.data.head? ≠ some c) :
    goodStr (String.mk (c :: cs)) := by
  refine ⟨fun hmem => h5 _ hmem rfl, ?_, fun hmem => h6 _ hmem rfl⟩
  have hdata : (String.mk (c :: cs)).data = c :: cs := rfl
  have htrim : trimWs (String.mk (c :: cs)).data = c :: trimTrail cs := by
    rw [hdata]
    exact trimWs_cons c cs h0
  simp [isNumStr, parseDec, htrim,
    parseDecCore_head_nonnum c _ h1 h2 h3 h4,
    isInfTok_head_false c _ h2 h3 hi]

/-- Generated identifiers survive the round trip. -/
lemma genId_good (n : Nat) : goodStr (genId n) := by
  unfold genId
  exact goodStr_mk_head 'u' _ (by decide) (by decide) (by decide)
    (by decide) (by decide) (by decide) naTokens_head_u boolTokens_head_u

/-- Timestamp renderings survive the round trip. -/
lemma fmtDT_good (t : DT) : goodStr (fmtDT t) := by
  unfold fmtDT
  exact goodStr_mk_head 'd' _ (by decide) (by decide) (by decide)
    (by decide) (by decide) (by decide) naTokens_head_d boolTokens_head_d

/-- A surviving string is not numeric-column material. -/
lemma potNum_str_false (s : String) (hg : goodStr s) :
    potNum (Cell.str s) = false := by
  obtain ⟨hna, hnum, _⟩ := hg
  simp [potNum, hna, hnum]

/-- A surviving string is not boolean-column material. -/
lemma potBool_str_false (s : String) (hg : goodStr s) :
    potBool (Cell.str s) = false := by
  obtain ⟨hna, _, hbool⟩ := hg
  simp [potBool, hna, hbool]

/-- In an object column a surviving string stays itself. -/
lemma convertCell_kstr (s : String) (hg : goodStr s) :
    convertCell ColKind.kstr (Cell.str s) = CellVal.vStr s := by
  simp [convertCell, hg.1]

/-- A column all of whose cells are numeric-compatible is inferred
numeric. -/
lemma colKind_of_all_num (rows : List (List Cell)) (j : Nat)
    (h : ∀ r ∈ rows, potNum (r.getD j (Cell.str "")) = true) :
    colKind rows j = ColKind.knum := by
  have hall : (rows.map (fun r => r.getD j (Cell.str ""))).all potNum
      = true := by
    rw [List.all_eq_true]
    intro x hx
    obtain ⟨r, hr, rfl⟩ := List.mem_map.mp hx
    exact h r hr
  simp only [colKind]
  rw [hall]
  rfl

/-- A column containing one cell that fits neither numbers nor booleans is
inferred as plain text. -/
lemma colKind_of_witness_str (rows : List (List Cell)) (j : Nat)
    (r0 : List Cell) (hr0 : r0 ∈ rows)
    (h1 : potNum (r0.getD j (Cell.str "")) = false)
    (h2 : potBool (r0.getD j (Cell.str "")) = false) :
    colKind rows j = ColKind.kstr := by
  have ha : (rows.map (fun r => r.getD j (Cell.str ""))).all potNum
      = false := by
    cases hall : (rows.map (fun r => r.getD j (Cell.str ""))).all potNum
    · rfl
    · have h3 := List.all_eq_true.mp hall _
        (List.mem_map_of_mem (fun r => r.getD j (Cell.str "")) hr0)
      rw [h1] at h3
      exact absurd h3 (by simp)
  have hb : (rows.map (fun r => r.getD j (Cell.str ""))).all potBool
      = false := by
    cases hall : (rows.map (fun r => r.getD j (Cell.str ""))).all potBool
    · rfl
    · have h3 := List.all_eq_true.mp hall _
        (List.mem_map_of_mem (fun r => r.getD j (Cell.str "")) hr0)
      rw [h2] at h3
      exact absurd h3 (by simp)
  simp only [colKind]
  rw [ha, hb]
  rfl

/-- Parsing one serialized session row in a document whose six text columns
were inferred as text and whose duration column was inferred numeric
reproduces the record's cells exactly. -/
lemma parse_row_good (rows : List (List Cell)) (r : Session)
    (hk0 : colKind rows 0 = ColKind.kstr)
    (hk1 : colKind rows 1 = ColKind.kstr)
    (hk2 : colKind rows 2 = ColKind.kstr)
    (hk3 : colKind rows 3 = ColKind.kstr)
    (hk4 : colKind rows 4 = ColKind.kstr)
    (hk5 : colKind rows 5 = ColKind.kstr)
    (hk6 : colKind rows 6 = ColKind.knum)
    (hg : GoodRec r) :
    (List.range 7).map (fun j =>
        convertCell (colKind rows j) ((rowToCells r).getD j (Cell.str "")))
      = expectedCells r := by
  obtain ⟨hid, happ, hcat, hnotes⟩ := hg
  have hrange : List.range 7 = [0, 1, 2, 3, 4, 5, 6] := rfl
  rw [hrange]
  simp only [List.map_cons, List.map_nil, rowToCells, List.getD_cons_zero,
    List.getD_cons_succ]
  rw [hk0, hk1, hk2, hk3, hk4, hk5, hk6]
  rw [convertCell_kstr _ hid, convertCell_kstr _ (fmtDT_good r.start),
    convertCell_kstr _ (fmtDT_good r.end_), convertCell_kstr _ happ,
    convertCell_kstr _ hcat, convertCell_kstr _ hnotes]
  rfl

/-- Reading back an export of surviving records reproduces their cells
exactly. -/
lemma read_csv_exact (L : List Session) (hgood : ∀ r ∈ L, GoodRec r) :
    read_csv (to_csv L) = some (L.map expectedCells) := by
  cases L with
  | nil => decide
  | cons x t =>
    have hgx := hgood x (by simp)
    have hwidth : ((to_csv (x :: t)).rows.any
        (fun r => r.length != (to_csv (x :: t)).header.length)) = false := by
      simp only [to_csv]
      rw [List.any_eq_false]
      intro r hr
      obtain ⟨y, _, rfl⟩ := List.mem_map.mp hr
      simp [rowToCells, schemaCols]
    have hrows : (to_csv (x :: t)).rows = (x :: t).map rowToCells := rfl
    have hmem0 : rowToCells x ∈ (to_csv (x :: t)).rows := by
      rw [hrows]
      exact List.mem_map_of_mem rowToCells (by simp)
    have hk0 := colKind_of_witness_str _ 0 (rowToCells x) hmem0
      (potNum_str_false _ hgx.1) (potBool_str_false _ hgx.1)
    have hk1 := colKind_of_witness_str _ 1 (rowToCells x) hmem0
      (potNum_str_false _ (fmtDT_good x.start))
      (potBool_str_false _ (fmtDT_good x.start))
    have hk2 := colKind_of_witness_str _ 2 (rowToCells x) hmem0
      (potNum_str_false _ (fmtDT_good x.end_))
      (potBool_str_false _ (fmtDT_good x.end_))
    have hk3 := colKind_of_witness_str _ 3 (rowToCells x) hmem0
      (potNum_str_false _ hgx.2.1) (potBool_str_false _ hgx.2.1)
    have hk4 := colKind_of_witness_str _ 4 (rowToCells x) hmem0
      (potNum_str_false _ hgx.2.2.1) (potBool_str_false _ hgx.2.2.1)
    have hk5 := colKind_of_witness_str _ 5 (rowToCells x) hmem0
      (potNum_str_false _ hgx.2.2.2) (potBool_str_false _ hgx.2.2.2)
    have hk6 : colKind (to_csv (x :: t)).rows 6 = ColKind.knum := by
      apply colKind_of_all_num
      intro r hr
      rw [hrows] at hr
      obtain ⟨y, _, rfl⟩ := List.mem_map.mp hr
      rfl
    have hne : ¬ (to_csv (x :: t)).header = [] := by
      simp [to_csv, schemaCols]
    unfold read_csv
    rw [if_neg hne, if_neg (by simp [hwidth])]
    congr 1
    have hlen : (to_csv (x :: t)).header.length = 7 := rfl
    rw [hlen, hrows, List.map_map]
    apply List.map_congr_left
    intro y hy
    exact parse_row_good (to_csv (x :: t)).rows y hk0 hk1 hk2 hk3 hk4 hk5
      hk6 (hgood y hy)

/-- Every record of a ledger built by valid adds with surviving text
fields survives the round trip. -/
lemma buildFrom_good :
    ∀ (inputs : List AddInput) (st : LedgerState),
      (∀ r ∈ st.sessions, GoodRec r) →
      (∀ i ∈ inputs, goodStr i.app ∧ goodStr i.category ∧ goodStr i.notes) →
      ∀ r ∈ (buildFrom st inputs).sessions, GoodRec r := by
  intro inputs
  induction inputs with
  | nil =>
    intro st h _ r hr
    exact h r hr
  | cons i rest ih =>
    intro st h hi r hr
    have hstep : ∀ r2 ∈
        (addHandler st i.start i.end_ i.app i.category i.notes).1.sessions,
        GoodRec r2 := by
      intro r2 hr2
      by_cases hv : toSec i.end_ ≤ toSec i.start
      · rw [addHandler, if_pos hv] at hr2
        exact h r2 hr2
      · rw [addHandler, if_neg hv] at hr2
        simp only [add_session] at hr2
        rcases List.mem_append.mp hr2 with hin | hnew
        · exact h r2 hin
        · have : r2 = mkSession st.ctr i.start i.end_ i.app i.category
              i.notes := by simpa using hnew
          rw [this]
          exact ⟨genId_good st.ctr, (hi i (by simp)).1,
            (hi i (by simp)).2.1, (hi i (by simp)).2.2⟩
    have hrest : ∀ j ∈ rest,
        goodStr j.app ∧ goodStr j.category ∧ goodStr j.notes :=
      fun j hj => hi j (by simp [hj])
    simp only [buildFrom] at hr ⊢
    exact ih _ hstep hrest r hr

/-- C6 as amended: for a ledger built by appending sessions whose app,
category and notes fields are not NA tokens (in particular not empty), not
numeric literals and not boolean tokens, exporting and importing into an
empty store reproduces every record's fields exactly, with the same record
count.  (Identifiers, timestamps and durations need no proviso.) -/
theorem csv_roundtrip_amended (inputs : List AddInput)
    (h : ∀ i ∈ inputs, goodStr i.app ∧ goodStr i.category ∧ goodStr i.notes) :
    importHandler (to_csv (buildLedger inputs).sessions) []
      = ((buildLedger inputs).sessions.map expectedCells, true) := by
  have hgood : ∀ r ∈ (buildLedger inputs).sessions, GoodRec r :=
    buildFrom_good inputs initState (by simp [initState]) h
  have hread := read_csv_exact _ hgood
  simp [importHandler, hread]

/-- Witness for C6 as amended: one appended session with ordinary text
fields round-trips exactly. -/
theorem csv_roundtrip_amended_witness :
    (∀ i ∈ [(⟨⟨0, 32400⟩, ⟨0, 33900⟩, ("browser"), ("Social"), ("hello")⟩ :
        AddInput)], goodStr i.app ∧ goodStr i.category ∧ goodStr i.notes)
      ∧ importHandler
          (to_csv (buildLedger
            [⟨⟨0, 32400⟩, ⟨0, 33900⟩, ("browser"), ("Social"),
              ("hello")⟩]).sessions) []
          = ((buildLedger
              [⟨⟨0, 32400⟩, ⟨0, 33900⟩, ("browser"), ("Social"),
                ("hello")⟩]).sessions.map expectedCells, true) :=
  ⟨by decide,
    csv_roundtrip_amended
      [⟨⟨0, 32400⟩, ⟨0, 33900⟩, ("browser"), ("Social"), ("hello")⟩]
      (by decide)⟩

/-- Evaluating the ledger built from the spec's example add (09:00 to
09:25, default empty notes): one record of 25 minutes. -/
lemma c6_build_eval :
    buildLedger [⟨⟨0, 32400⟩, ⟨0, 33900⟩, ("browser"), ("Social"), ("")⟩]
      = ⟨[⟨genId 0, ⟨0, 32400⟩, ⟨0, 33900⟩, ("browser"), ("Social"), (""),
          25⟩], 1⟩ := by
  norm_num [buildLedger, buildFrom, addHandler, add_session, mkSession,
    initState, toSec, round2, duration_minutes, round_eq]

/-- Counterexample to C6 as stated: the ledger built by one append with
the default empty notes field genuinely holds one record, yet exporting it
and importing the result does not reproduce the record set — `pd.read_csv`
returns the empty notes cell as missing (NaN), not as the empty string. -/
theorem csv_roundtrip_counterexample :
    (buildLedger [⟨⟨0, 32400⟩, ⟨0, 33900⟩, ("browser"), ("Social"),
        ("")⟩]).sessions.length = 1
      ∧ read_csv (to_csv (buildLedger [⟨⟨0, 32400⟩, ⟨0, 33900⟩,
          ("browser"), ("Social"), ("")⟩]).sessions)
        ≠ some ((buildLedger [⟨⟨0, 32400⟩, ⟨0, 33900⟩, ("browser"),
            ("Social"), ("")⟩]).sessions.map expectedCells) := by
  rw [c6_build_eval]
  refine ⟨rfl, ?_⟩
  decide
